import Mathlib

/-!
Verification of the vol2mesh streaming mesh-generation pipeline
(`vol2mesh/vol2mesh.py`) against its natural-language specification.

The Python source is shallowly embedded below:
* the filesystem state touched by `temp_pipe` (temp directories and named
  pipes) is an explicit `FS` record threaded through the functions;
* `temp_pipe`, a `@contextmanager` generator with a bare `yield` (no
  `try/finally`), is embedded as a combinator that performs its cleanup
  lines only when the body returns normally — exactly the semantics of a
  generator-based context manager whose `yield` is not protected;
* the external simplifier child process is out of scope and is
  parameterized by its output bytes and exit code;
* byte streams are modelled as `String`s, voxel volumes as nested lists of
  naturals (value `> 0` means foreground), vertex coordinates as `ℚ`.
-/

set_option autoImplicit false

namespace Vol2Mesh

/-- Filesystem state visible to the pipeline: the set of temporary
directories and named pipes currently present, as created by
`tempfile.mkdtemp` / `os.mkfifo` and removed by `os.rmdir` / `os.unlink`. -/
structure FS where
  dirs : List String
  pipes : List String
deriving Repr, DecidableEq

/-- Errors raised by `simplify_mesh`: the `assert` on the input type, and
the `RuntimeError("fq-mesh-simplify returned an error code: ...")` carrying
the child's exit code (the spec's `SimplificationError`). -/
inductive SimplifyError
  | assertionError
  | simplificationError (exitCode : Int)
deriving Repr, DecidableEq

/-- The argument of `simplify_mesh`: a Python `str`, `bytes`, or `BytesIO`
value; `stream` stands for `BytesIO` (for the latter two, the payload
modelled as a `String` of bytes). -/
inductive MeshInput
  | str (s : String)
  | bytes (b : String)
  | stream (b : String)
deriving Repr, DecidableEq

/-- Embedding of `temp_pipe` (vol2mesh.py lines 41-59).

```
dir = tempfile.mkdtemp(); path = f"{dir}/{name}"; os.mkfifo(path)
yield path
os.unlink(path); os.rmdir(dir)
```

The fresh directory returned by `mkdtemp` is passed in as `dir`.  Because
the generator's `yield` is not wrapped in `try/finally`, an exception
raised by the body is rethrown at the `yield` and the two cleanup lines
never run; only a normal return executes them.  The embedding reproduces
this: on `Except.error` the filesystem is left as the body left it. -/
def temp_pipe {α : Type} (dir name : String) (fs : FS)
    (body : String → FS → FS × Except SimplifyError α) :
    FS × Except SimplifyError α :=
  let path := dir ++ "/" ++ name
  let fs1 : FS := { dirs := dir :: fs.dirs, pipes := path :: fs.pipes }
  match body path fs1 with
  | (fs2, Except.error e) => (fs2, Except.error e)
  | (fs2, Except.ok a) =>
      ({ dirs := fs2.dirs.erase dir, pipes := fs2.pipes.erase path }, Except.ok a)

/-- Body of `simplify_mesh` after the input has been normalized to a
`BytesIO` (vol2mesh.py lines 76-96).  Inside the two `temp_pipe` contexts a
writer thread streams `content` into the request pipe, the child process
`fq-mesh-simplify` is spawned, and the response pipe is read to completion
(`childOutput`); the `finally` block waits for the child and raises
`RuntimeError` when its exit code (`childExit`) is nonzero, which discards
the bytes already read. -/
def simplify_mesh_core (content : String) (simplify_ratio : ℚ) (dir1 dir2 : String)
    (childOutput : String) (childExit : Int) (fs : FS) :
    FS × Except SimplifyError String :=
  temp_pipe dir1 "mesh.obj" fs (fun _mesh_path fs1 =>
    temp_pipe dir2 "simple.obj" fs1 (fun _simple_path fs2 =>
      let _ := content
      let _ := simplify_ratio
      if childExit ≠ 0 then (fs2, Except.error (SimplifyError.simplificationError childExit))
      else (fs2, Except.ok childOutput)))

/-- Embedding of `simplify_mesh` (vol2mesh.py lines 61-96): assert the
input is not a `str`, wrap `bytes` into a `BytesIO`, then run the piped
simplification.  `dir1`/`dir2` are the fresh directories produced by the
two `mkdtemp` calls; `childOutput`/`childExit` parameterize the external
child process. -/
def simplify_mesh (mesh_obj_stream : MeshInput) (simplify_ratio : ℚ) (dir1 dir2 : String)
    (childOutput : String) (childExit : Int) (fs : FS) :
    FS × Except SimplifyError String :=
  match mesh_obj_stream with
  | MeshInput.str _ => (fs, Except.error SimplifyError.assertionError)
  | MeshInput.bytes b => simplify_mesh_core b simplify_ratio dir1 dir2 childOutput childExit fs
  | MeshInput.stream b => simplify_mesh_core b simplify_ratio dir1 dir2 childOutput childExit fs

/-- The error with which the bounding-box extractor fails on a volume with
no foreground voxel: Python's `min`/`max` raise
`ValueError("min() arg is an empty sequence")` on the empty index lists;
the spec's error taxonomy names this condition `EmptyVolumeError`. -/
inductive EmptyVolumeError
  | valueError
deriving Repr, DecidableEq

/-- Python's builtin `min` on a list of naturals: raises on an empty
sequence, otherwise folds the binary minimum over the elements. -/
def pymin (l : List ℕ) : Except EmptyVolumeError ℕ :=
  match l with
  | [] => Except.error EmptyVolumeError.valueError
  | x :: xs => Except.ok (xs.foldl Nat.min x)

/-- Python's builtin `max` on a list of naturals: raises on an empty
sequence, otherwise folds the binary maximum over the elements. -/
def pymax (l : List ℕ) : Except EmptyVolumeError ℕ :=
  match l with
  | [] => Except.error EmptyVolumeError.valueError
  | x :: xs => Except.ok (xs.foldl Nat.max x)

/-- Embedding of `findBBDimensions` (vol2mesh.py lines 21-39).  Its input
is the triple of per-axis index lists produced by `np.where(volume > 0)`;
the first returned list is the bounding box
`[min0, max0+1, min1, max1+1, min2, max2+1]` (max fields exclusive), the
second is `[max0-min0, max1-min1, max2-min2]`. -/
def findBBDimensions (listOfPixels : List ℕ × List ℕ × List ℕ) :
    Except EmptyVolumeError (List ℕ × List ℕ) := do
  let xs := listOfPixels.1
  let ys := listOfPixels.2.1
  let zs := listOfPixels.2.2
  let minxs ← pymin xs
  let maxxs ← pymax xs
  let minys ← pymin ys
  let maxys ← pymax ys
  let minzs ← pymin zs
  let maxzs ← pymax zs
  return ([minxs, maxxs + 1, minys, maxys + 1, minzs, maxzs + 1],
          [maxxs - minxs, maxys - minys, maxzs - minzs])

/-- The index triples (in axis order) of the voxels with value `> 0` of a
volume stored as nested lists, in row-major order — the contents of
`np.where(volume > 0)`. -/
def nonzeroIndices (vol : List (List (List ℕ))) : List (ℕ × ℕ × ℕ) :=
  (vol.enum.map (fun ip =>
    (ip.2.enum.map (fun jr =>
      jr.2.enum.filterMap (fun kv =>
        if 0 < kv.2 then some (ip.1, jr.1, kv.1) else none))).flatten)).flatten

/-- `np.where(volume > 0)` as consumed by `findBBDimensions`: the triple
of per-axis index lists of the foreground voxels. -/
def whereNonzero (vol : List (List (List ℕ))) : List ℕ × List ℕ × List ℕ :=
  ((nonzeroIndices vol).map (fun p => p.1),
   (nonzeroIndices vol).map (fun p => p.2.1),
   (nonzeroIndices vol).map (fun p => p.2.2))

/-- Round to the nearest integer, ties to even — the rounding used by
Python's fixed-point float formatting. -/
def roundHalfEven (q : ℚ) : ℤ :=
  let f : ℤ := Int.floor q
  let r : ℚ := q - f
  if r < 1/2 then f
  else if 1/2 < r then f + 1
  else if f % 2 = 0 then f else f + 1

/-- Python's fixed-point formatting `f"{q:.7f}"` on an exact rational:
optional sign, integer part, dot, exactly seven fractional digits. -/
def fmt7 (q : ℚ) : String :=
  let n : ℤ := roundHalfEven (q * 10000000)
  let sign := if n < 0 then "-" else ""
  let m := n.natAbs
  let ip := m / 10000000
  let fp := m % 10000000
  let fpStr := toString fp
  let pad := String.mk (List.replicate (7 - fpStr.length) '0')
  sign ++ toString ip ++ "." ++ pad ++ fpStr

/-- Embedding of `generate_obj` (vol2mesh.py lines 99-111): write the
comment header into a fresh byte buffer, then one line per vertex
`f"v {x:.7f} {y:.7f} {z:.7f}\n"`, then one line per face
`f"f {v1} {v2} {v3} \n"` (the source puts a space before that newline). -/
def generate_obj (vertices_xyz : List (ℚ × ℚ × ℚ)) (faces : List (ℕ × ℕ × ℕ)) : String :=
  let buf := "# OBJ file\n"
  let buf := vertices_xyz.foldl (fun b v =>
    b ++ ("v " ++ fmt7 v.1 ++ " " ++ fmt7 v.2.1 ++ " " ++ fmt7 v.2.2 ++ "\n")) buf
  let buf := faces.foldl (fun b f =>
    b ++ ("f " ++ toString f.1 ++ " " ++ toString f.2.1 ++ " " ++ toString f.2.2 ++ " \n")) buf
  buf

/-- The serializer exactly as the spec's words describe it, for comparison
with `generate_obj` (refinement check for the serializer claim): face
lines are `f <i1> <i2> <i3>` immediately followed by the newline. -/
def generate_obj_claimed (vertices_xyz : List (ℚ × ℚ × ℚ)) (faces : List (ℕ × ℕ × ℕ)) :
    String :=
  let buf := "# OBJ file\n"
  let buf := vertices_xyz.foldl (fun b v =>
    b ++ ("v " ++ fmt7 v.1 ++ " " ++ fmt7 v.2.1 ++ " " ++ fmt7 v.2.2 ++ "\n")) buf
  let buf := faces.foldl (fun b f =>
    b ++ ("f " ++ toString f.1 ++ " " ++ toString f.2.1 ++ " " ++ toString f.2.2 ++ "\n")) buf
  buf

/-- Concatenation of the rendered pieces of a list, used to state the line
structure of `generate_obj`. -/
def concatMap {α : Type} (g : α → String) : List α → String
  | [] => ""
  | a :: as => g a ++ concatMap g as

/-- `vertices_xyz[:] *= downsample_factor` (vol2mesh.py line 127). -/
def scale_vertices (vs : List (ℚ × ℚ × ℚ)) (k : ℚ) : List (ℚ × ℚ × ℚ) :=
  vs.map (fun v => (v.1 * k, v.2.1 * k, v.2.2 * k))

/-- `vertices_xyz[:] += box_xyz[0]` (vol2mesh.py line 128). -/
def translate_vertices (vs : List (ℚ × ℚ × ℚ)) (t : ℚ × ℚ × ℚ) : List (ℚ × ℚ × ℚ) :=
  vs.map (fun v => (v.1 + t.1, v.2.1 + t.2.1, v.2.2 + t.2.2))

/-- `faces = faces[:, ::-1]` (vol2mesh.py line 133): reverse each face
tuple. -/
def reverse_faces (fs : List (ℕ × ℕ × ℕ)) : List (ℕ × ℕ × ℕ) :=
  fs.map (fun f => (f.2.2, f.2.1, f.1))

/-- `faces += 1` (vol2mesh.py line 134): add 1 to every index, converting
to 1-based indexing. -/
def increment_faces (fs : List (ℕ × ℕ × ℕ)) : List (ℕ × ℕ × ℕ) :=
  fs.map (fun f => (f.1 + 1, f.2.1 + 1, f.2.2 + 1))

/-- `np.asarray(box_zyx)[:,::-1][0]`: the minimum corner of the bounding
box with its coordinates reversed from (z,y,x) to (x,y,z) order. -/
def boxMinXyz (box_zyx : (ℚ × ℚ × ℚ) × (ℚ × ℚ × ℚ)) : ℚ × ℚ × ℚ :=
  (box_zyx.1.2.2, box_zyx.1.2.1, box_zyx.1.1)

/-- Embedding of `mesh_from_array` (vol2mesh.py lines 114-145) downstream
of the external `march` call, whose raw output buffers `vertices_xyz` and
`faces` are parameters (the normals are unused by the source): rescale and
translate the vertices, reverse and 1-base the faces, serialize to OBJ,
then either return the serialized bytes directly (`simplify_ratio = none`,
after `generate_obj` seeks the stream back to 0 the `read()` returns the
whole buffer) or pipe them through `simplify_mesh`. -/
def mesh_from_array (vertices_xyz : List (ℚ × ℚ × ℚ)) (faces : List (ℕ × ℕ × ℕ))
    (box_zyx : (ℚ × ℚ × ℚ) × (ℚ × ℚ × ℚ)) (downsample_factor : ℚ)
    (simplify_ratio : Option ℚ) (dir1 dir2 : String) (childOutput : String)
    (childExit : Int) (fs : FS) : FS × Except SimplifyError String :=
  let verts := translate_vertices (scale_vertices vertices_xyz downsample_factor)
    (boxMinXyz box_zyx)
  let fcs := increment_faces (reverse_faces faces)
  let mesh_stream := generate_obj verts fcs
  match simplify_ratio with
  | none => (fs, Except.ok mesh_stream)
  | some r => simplify_mesh (MeshInput.stream mesh_stream) r dir1 dir2 childOutput childExit fs

/-- A Python slice `l[a:b]` with nonnegative bounds (clamped to the list
length, as numpy basic slicing clamps). -/
def pySlice {α : Type} (a b : ℕ) (l : List α) : List α := (l.drop a).take (b - a)

/-- Embedding of `window = labelStack[box[0]:box[1], box[2]:box[3],
box[4]:box[5]]` (vol2mesh.py line 157). -/
def cropVolume (vol : List (List (List ℕ))) (box : List ℕ) : List (List (List ℕ)) :=
  (pySlice (box.getD 0 0) (box.getD 1 0) vol).map (fun plane =>
    (pySlice (box.getD 2 0) (box.getD 3 0) plane).map (fun row =>
      pySlice (box.getD 4 0) (box.getD 5 0) row))

/-- A boolean voxel volume with an explicit shape, as allocated by
`np.zeros(paddedWindowSize, dtype=bool)`. -/
structure BoolVolume where
  shape0 : ℕ
  shape1 : ℕ
  shape2 : ℕ
  data : ℕ → ℕ → ℕ → Bool

/-- Embedding of the padding step (vol2mesh.py lines 159-165): allocate a
zero boolean volume two voxels larger than `window` on each axis
(`paddedWindowSize = tuple(i+2 for i in window.shape)`) and set exactly
the voxels at `localIndices + (1,1,1)` to `True`, where
`localIndices = np.where(window > 0)`. -/
def padCrop (window : List (List (List ℕ))) : BoolVolume :=
  { shape0 := window.length + 2,
    shape1 := (window.headD []).length + 2,
    shape2 := ((window.headD []).headD []).length + 2,
    data := fun z y x =>
      decide ((z, y, x) ∈ (nonzeroIndices window).map
        (fun p => (p.1 + 1, p.2.1 + 1, p.2.2 + 1))) }

/-- Rectangularity of a nested-list volume — what numpy guarantees for the
`ndarray` the source indexes: every plane has `n1` rows and every row has
`n2` entries. -/
abbrev IsRectWith (n1 n2 : ℕ) (vol : List (List (List ℕ))) : Prop :=
  ∀ plane ∈ vol, plane.length = n1 ∧ ∀ row ∈ plane, row.length = n2

end Vol2Mesh

namespace Vol2Mesh

/-- C1: claimed — every call to `simplify_mesh` removes both named pipes
and both temporary directories before returning or raising, on every exit
path.  The code violates this: on a successful run (child exit 0, first
conjunct) everything is cleaned up, but when the simplifier child exits
nonzero (second conjunct) the `RuntimeError` is rethrown at `temp_pipe`'s
unprotected `yield`, the `os.unlink`/`os.rmdir` lines are skipped, and both
pipes and both temporary directories remain on the filesystem. -/
theorem simplify_mesh_pipe_cleanup_behavior :
    (simplify_mesh (MeshInput.stream "# OBJ file\n") (1/2) "/tmp/t1" "/tmp/t2" "out" 0
        ⟨[], []⟩ = (⟨[], []⟩, Except.ok "out")) ∧
    (simplify_mesh (MeshInput.stream "# OBJ file\n") (1/2) "/tmp/t1" "/tmp/t2" "out" 1
        ⟨[], []⟩ =
      (⟨["/tmp/t2", "/tmp/t1"], ["/tmp/t2/simple.obj", "/tmp/t1/mesh.obj"]⟩,
       Except.error (SimplifyError.simplificationError 1))) := by
  constructor <;> rfl

/-- C2: if the simplifier child process exits with a nonzero code,
`simplify_mesh` fails with the error carrying that exit code; the bytes
already read from the response pipe (`out`) are discarded, never returned. -/
theorem simplify_mesh_failure_discards_output (b : String) (r : ℚ)
    (d1 d2 out : String) (ec : Int) (fs : FS) (h : ec ≠ 0) :
    (simplify_mesh (MeshInput.stream b) r d1 d2 out ec fs).2 =
      Except.error (SimplifyError.simplificationError ec) ∧
    (simplify_mesh (MeshInput.bytes b) r d1 d2 out ec fs).2 =
      Except.error (SimplifyError.simplificationError ec) := by
  simp [simplify_mesh, simplify_mesh_core, temp_pipe, h]

theorem simplify_mesh_failure_discards_output_witness :
    (1 : Int) ≠ 0 ∧
    ((simplify_mesh (MeshInput.stream "v 1 2 3\n") (1/2) "/tmp/a" "/tmp/b" "x" 1
        ⟨[], []⟩).2 = Except.error (SimplifyError.simplificationError 1) ∧
     (simplify_mesh (MeshInput.bytes "v 1 2 3\n") (1/2) "/tmp/a" "/tmp/b" "x" 1
        ⟨[], []⟩).2 = Except.error (SimplifyError.simplificationError 1)) :=
  ⟨by decide,
   simplify_mesh_failure_discards_output "v 1 2 3\n" (1/2) "/tmp/a" "/tmp/b" "x" 1
     ⟨[], []⟩ (by decide)⟩

/-- C10: `simplify_mesh` rejects a `str` input by failing its assertion
immediately — before any pipe or directory is created, so the filesystem
component of the result is the unchanged input state — and a `bytes` input
is wrapped into a `BytesIO` and processed identically to a `BytesIO`
input carrying the same bytes. -/
theorem simplify_mesh_input_types (s b : String) (r : ℚ) (d1 d2 out : String)
    (ec : Int) (fs : FS) :
    simplify_mesh (MeshInput.str s) r d1 d2 out ec fs =
      (fs, Except.error SimplifyError.assertionError) ∧
    simplify_mesh (MeshInput.bytes b) r d1 d2 out ec fs =
      simplify_mesh (MeshInput.stream b) r d1 d2 out ec fs :=
  ⟨rfl, rfl⟩

theorem foldl_min_mem (xs : List ℕ) : ∀ x : ℕ, xs.foldl Nat.min x ∈ x :: xs := by
  induction xs with
  | nil => intro x; simp
  | cons a as ih =>
    intro x
    rw [List.foldl_cons]
    rcases List.mem_cons.mp (ih (Nat.min x a)) with h | h
    · have hm : Nat.min x a = x ∨ Nat.min x a = a := by
        by_cases hxa : x ≤ a
        · exact Or.inl (Nat.min_eq_left hxa)
        · exact Or.inr (Nat.min_eq_right (Nat.le_of_not_le hxa))
      rcases hm with hm | hm
      · rw [h, hm]; exact List.mem_cons_self _ _
      · rw [h, hm]; exact List.mem_cons.mpr (Or.inr (List.mem_cons_self _ _))
    · exact List.mem_cons.mpr (Or.inr (List.mem_cons.mpr (Or.inr h)))

theorem foldl_min_le (xs : List ℕ) : ∀ x y : ℕ, y ∈ x :: xs → xs.foldl Nat.min x ≤ y := by
  induction xs with
  | nil =>
    intro x y h
    rcases List.mem_cons.mp h with h1 | h1
    · simp [h1]
    · cases h1
  | cons a as ih =>
    intro x y h
    rw [List.foldl_cons]
    have hbase : as.foldl Nat.min (Nat.min x a) ≤ Nat.min x a :=
      ih (Nat.min x a) (Nat.min x a) (List.mem_cons_self _ _)
    rcases List.mem_cons.mp h with h1 | h1
    · rw [h1]; exact Nat.le_trans hbase (Nat.min_le_left _ _)
    · rcases List.mem_cons.mp h1 with h2 | h2
      · rw [h2]; exact Nat.le_trans hbase (Nat.min_le_right _ _)
      · exact ih (Nat.min x a) y (List.mem_cons.mpr (Or.inr h2))

theorem foldl_max_mem (xs : List ℕ) : ∀ x : ℕ, xs.foldl Nat.max x ∈ x :: xs := by
  induction xs with
  | nil => intro x; simp
  | cons a as ih =>
    intro x
    rw [List.foldl_cons]
    rcases List.mem_cons.mp (ih (Nat.max x a)) with h | h
    · have hm : Nat.max x a = x ∨ Nat.max x a = a := by
        by_cases hxa : x ≤ a
        · exact Or.inr (Nat.max_eq_right hxa)
        · exact Or.inl (Nat.max_eq_left (Nat.le_of_not_le hxa))
      rcases hm with hm | hm
      · rw [h, hm]; exact List.mem_cons_self _ _
      · rw [h, hm]; exact List.mem_cons.mpr (Or.inr (List.mem_cons_self _ _))
    · exact List.mem_cons.mpr (Or.inr (List.mem_cons.mpr (Or.inr h)))

theorem foldl_le_max (xs : List ℕ) : ∀ x y : ℕ, y ∈ x :: xs → y ≤ xs.foldl Nat.max x := by
  induction xs with
  | nil =>
    intro x y h
    rcases List.mem_cons.mp h with h1 | h1
    · simp [h1]
    · cases h1
  | cons a as ih =>
    intro x y h
    rw [List.foldl_cons]
    have hbase : Nat.max x a ≤ as.foldl Nat.max (Nat.max x a) :=
      ih (Nat.max x a) (Nat.max x a) (List.mem_cons_self _ _)
    rcases List.mem_cons.mp h with h1 | h1
    · rw [h1]; exact Nat.le_trans (Nat.le_max_left _ _) hbase
    · rcases List.mem_cons.mp h1 with h2 | h2
      · rw [h2]; exact Nat.le_trans (Nat.le_max_right _ _) hbase
      · exact ih (Nat.max x a) y (List.mem_cons.mpr (Or.inr h2))

/-- Characterization of the `np.where` embedding: an index triple is
listed iff the voxel it addresses exists and has a positive value. -/
theorem mem_nonzeroIndices (vol : List (List (List ℕ))) (i j k : ℕ) :
    (i, j, k) ∈ nonzeroIndices vol ↔
      ∃ plane row v, vol[i]? = some plane ∧ plane[j]? = some row ∧
        row[k]? = some v ∧ 0 < v := by
  constructor
  · intro h
    rw [nonzeroIndices, List.mem_flatten] at h
    obtain ⟨l, hl, hpl⟩ := h
    rw [List.mem_map] at hl
    obtain ⟨⟨i', plane⟩, hip, rfl⟩ := hl
    rw [List.mem_flatten] at hpl
    obtain ⟨l2, hl2, hpl2⟩ := hpl
    rw [List.mem_map] at hl2
    obtain ⟨⟨j', row⟩, hjr, rfl⟩ := hl2
    rw [List.mem_filterMap] at hpl2
    obtain ⟨⟨k', v⟩, hkv, hsome⟩ := hpl2
    by_cases hv : 0 < v
    · rw [if_pos hv] at hsome
      obtain ⟨rfl, rfl, rfl⟩ : i' = i ∧ j' = j ∧ k' = k := by
        have := Option.some.inj hsome
        simp only [Prod.mk.injEq] at this
        exact ⟨this.1, this.2.1, this.2.2⟩
      exact ⟨plane, row, v, List.mk_mem_enum_iff_getElem?.mp hip,
             List.mk_mem_enum_iff_getElem?.mp hjr,
             List.mk_mem_enum_iff_getElem?.mp hkv, hv⟩
    · rw [if_neg hv] at hsome
      cases hsome
  · rintro ⟨plane, row, v, hp, hr, hv, hpos⟩
    rw [nonzeroIndices, List.mem_flatten]
    refine ⟨_, List.mem_map.mpr ⟨(i, plane), List.mk_mem_enum_iff_getElem?.mpr hp, rfl⟩, ?_⟩
    rw [List.mem_flatten]
    refine ⟨_, List.mem_map.mpr ⟨(j, row), List.mk_mem_enum_iff_getElem?.mpr hr, rfl⟩, ?_⟩
    rw [List.mem_filterMap]
    exact ⟨(k, v), List.mk_mem_enum_iff_getElem?.mpr hv, by simp [hpos]⟩

/-- `findBBDimensions` on three nonempty index lists: every `min`/`max`
succeeds and the box and extents are assembled from the folds. -/
theorem findBBDimensions_ok (x0 : ℕ) (xs : List ℕ) (y0 : ℕ) (ys : List ℕ)
    (z0 : ℕ) (zs : List ℕ) :
    findBBDimensions (x0 :: xs, y0 :: ys, z0 :: zs) =
      Except.ok ([xs.foldl Nat.min x0, xs.foldl Nat.max x0 + 1,
                  ys.foldl Nat.min y0, ys.foldl Nat.max y0 + 1,
                  zs.foldl Nat.min z0, zs.foldl Nat.max z0 + 1],
                 [xs.foldl Nat.max x0 - xs.foldl Nat.min x0,
                  ys.foldl Nat.max y0 - ys.foldl Nat.min y0,
                  zs.foldl Nat.max z0 - zs.foldl Nat.min z0]) := rfl

/-- C4: for every volume with at least one voxel of value `> 0` (the
`np.where` index list is nonempty), `findBBDimensions` returns a box
`[i0, i1, j0, j1, k0, k1]` that contains every foreground voxel with the
max fields exclusive (`p.1 < i1`, one past the last nonzero index:
some foreground voxel has first coordinate `i1 - 1`), and the box is
minimal: on each axis some foreground voxel attains the min field and
some attains the last index before the exclusive max, so shrinking any
face would exclude a foreground voxel.  (By `mem_nonzeroIndices`,
`p ∈ nonzeroIndices vol` says exactly that voxel `p` has value `> 0`.) -/
theorem findBB_covers_and_minimal (vol : List (List (List ℕ)))
    (h : nonzeroIndices vol ≠ []) :
    ∃ i0 i1 j0 j1 k0 k1 dims,
      findBBDimensions (whereNonzero vol) = Except.ok ([i0, i1, j0, j1, k0, k1], dims) ∧
      (∀ p ∈ nonzeroIndices vol,
         i0 ≤ p.1 ∧ p.1 < i1 ∧ j0 ≤ p.2.1 ∧ p.2.1 < j1 ∧ k0 ≤ p.2.2 ∧ p.2.2 < k1) ∧
      (∃ p ∈ nonzeroIndices vol, p.1 = i0) ∧
      (∃ p ∈ nonzeroIndices vol, p.1 = i1 - 1) ∧
      (∃ p ∈ nonzeroIndices vol, p.2.1 = j0) ∧
      (∃ p ∈ nonzeroIndices vol, p.2.1 = j1 - 1) ∧
      (∃ p ∈ nonzeroIndices vol, p.2.2 = k0) ∧
      (∃ p ∈ nonzeroIndices vol, p.2.2 = k1 - 1) := by
  obtain ⟨p0, ps, heq⟩ := List.exists_cons_of_ne_nil h
  have hwhere : whereNonzero vol =
      (p0.1 :: ps.map (fun p => p.1),
       p0.2.1 :: ps.map (fun p => p.2.1),
       p0.2.2 :: ps.map (fun p => p.2.2)) := by
    simp [whereNonzero, heq]
  refine ⟨(ps.map (fun p => p.1)).foldl Nat.min p0.1,
          (ps.map (fun p => p.1)).foldl Nat.max p0.1 + 1,
          (ps.map (fun p => p.2.1)).foldl Nat.min p0.2.1,
          (ps.map (fun p => p.2.1)).foldl Nat.max p0.2.1 + 1,
          (ps.map (fun p => p.2.2)).foldl Nat.min p0.2.2,
          (ps.map (fun p => p.2.2)).foldl Nat.max p0.2.2 + 1,
          _, by rw [hwhere, findBBDimensions_ok], ?_, ?_, ?_, ?_, ?_, ?_, ?_⟩
  · intro p hp
    rw [heq] at hp
    have h1 : p.1 ∈ p0.1 :: ps.map (fun q => q.1) := by
      rcases List.mem_cons.mp hp with rfl | hp'
      · exact List.mem_cons_self _ _
      · exact List.mem_cons.mpr (Or.inr (List.mem_map_of_mem _ hp'))
    have h2 : p.2.1 ∈ p0.2.1 :: ps.map (fun q => q.2.1) := by
      rcases List.mem_cons.mp hp with rfl | hp'
      · exact List.mem_cons_self _ _
      · exact List.mem_cons.mpr (Or.inr (List.mem_map_of_mem _ hp'))
    have h3 : p.2.2 ∈ p0.2.2 :: ps.map (fun q => q.2.2) := by
      rcases List.mem_cons.mp hp with rfl | hp'
      · exact List.mem_cons_self _ _
      · exact List.mem_cons.mpr (Or.inr (List.mem_map_of_mem _ hp'))
    exact ⟨foldl_min_le _ _ _ h1, Nat.lt_succ_of_le (foldl_le_max _ _ _ h1),
           foldl_min_le _ _ _ h2, Nat.lt_succ_of_le (foldl_le_max _ _ _ h2),
           foldl_min_le _ _ _ h3, Nat.lt_succ_of_le (foldl_le_max _ _ _ h3)⟩
  · have := foldl_min_mem (ps.map (fun q => q.1)) p0.1
    rcases List.mem_cons.mp this with hm | hm
    · exact ⟨p0, by rw [heq]; exact List.mem_cons_self _ _, hm.symm⟩
    · obtain ⟨q, hq, hq'⟩ := List.mem_map.mp hm
      exact ⟨q, by rw [heq]; exact List.mem_cons.mpr (Or.inr hq), hq'⟩
  · have := foldl_max_mem (ps.map (fun q => q.1)) p0.1
    rcases List.mem_cons.mp this with hm | hm
    · exact ⟨p0, by rw [heq]; exact List.mem_cons_self _ _, by omega⟩
    · obtain ⟨q, hq, hq'⟩ := List.mem_map.mp hm
      exact ⟨q, by rw [heq]; exact List.mem_cons.mpr (Or.inr hq), by omega⟩
  · have := foldl_min_mem (ps.map (fun q => q.2.1)) p0.2.1
    rcases List.mem_cons.mp this with hm | hm
    · exact ⟨p0, by rw [heq]; exact List.mem_cons_self _ _, hm.symm⟩
    · obtain ⟨q, hq, hq'⟩ := List.mem_map.mp hm
      exact ⟨q, by rw [heq]; exact List.mem_cons.mpr (Or.inr hq), hq'⟩
  · have := foldl_max_mem (ps.map (fun q => q.2.1)) p0.2.1
    rcases List.mem_cons.mp this with hm | hm
    · exact ⟨p0, by rw [heq]; exact List.mem_cons_self _ _, by omega⟩
    · obtain ⟨q, hq, hq'⟩ := List.mem_map.mp hm
      exact ⟨q, by rw [heq]; exact List.mem_cons.mpr (Or.inr hq), by omega⟩
  · have := foldl_min_mem (ps.map (fun q => q.2.2)) p0.2.2
    rcases List.mem_cons.mp this with hm | hm
    · exact ⟨p0, by rw [heq]; exact List.mem_cons_self _ _, hm.symm⟩
    · obtain ⟨q, hq, hq'⟩ := List.mem_map.mp hm
      exact ⟨q, by rw [heq]; exact List.mem_cons.mpr (Or.inr hq), hq'⟩
  · have := foldl_max_mem (ps.map (fun q => q.2.2)) p0.2.2
    rcases List.mem_cons.mp this with hm | hm
    · exact ⟨p0, by rw [heq]; exact List.mem_cons_self _ _, by omega⟩
    · obtain ⟨q, hq, hq'⟩ := List.mem_map.mp hm
      exact ⟨q, by rw [heq]; exact List.mem_cons.mpr (Or.inr hq), by omega⟩

theorem findBB_covers_and_minimal_witness :
    nonzeroIndices [[[0, 3], [5, 0]]] ≠ [] ∧
    (∃ i0 i1 j0 j1 k0 k1 dims,
      findBBDimensions (whereNonzero [[[0, 3], [5, 0]]]) =
        Except.ok ([i0, i1, j0, j1, k0, k1], dims) ∧
      (∀ p ∈ nonzeroIndices [[[0, 3], [5, 0]]],
         i0 ≤ p.1 ∧ p.1 < i1 ∧ j0 ≤ p.2.1 ∧ p.2.1 < j1 ∧ k0 ≤ p.2.2 ∧ p.2.2 < k1) ∧
      (∃ p ∈ nonzeroIndices [[[0, 3], [5, 0]]], p.1 = i0) ∧
      (∃ p ∈ nonzeroIndices [[[0, 3], [5, 0]]], p.1 = i1 - 1) ∧
      (∃ p ∈ nonzeroIndices [[[0, 3], [5, 0]]], p.2.1 = j0) ∧
      (∃ p ∈ nonzeroIndices [[[0, 3], [5, 0]]], p.2.1 = j1 - 1) ∧
      (∃ p ∈ nonzeroIndices [[[0, 3], [5, 0]]], p.2.2 = k0) ∧
      (∃ p ∈ nonzeroIndices [[[0, 3], [5, 0]]], p.2.2 = k1 - 1)) :=
  ⟨by decide, findBB_covers_and_minimal [[[0, 3], [5, 0]]] (by decide)⟩

/-- C5 counterexample: the claim says the second returned value equals,
per axis, the exclusive max field minus the min field of the box.  On the
single-voxel index lists `([0], [0], [0])` the box is `[0, 1, 0, 1, 0, 1]`
(so exclusive max minus min is `1` on every axis) but the second returned
value is `[0, 0, 0]`. -/
theorem findBB_extent_counterexample :
    findBBDimensions ([0], [0], [0]) = Except.ok ([0, 1, 0, 1, 0, 1], [0, 0, 0]) ∧
    ([0, 0, 0] : List ℕ) ≠ [1 - 0, 1 - 0, 1 - 0] := by
  constructor
  · rfl
  · decide

/-- C5 (amended): whenever `findBBDimensions` returns a box and an extent
list, the extent on each axis equals the exclusive max field minus the min
field minus one (equivalently, the inclusive max minus the min). -/
theorem findBB_extent_amended (p : List ℕ × List ℕ × List ℕ) (box dims : List ℕ)
    (h : findBBDimensions p = Except.ok (box, dims)) :
    dims = [box.getD 1 0 - box.getD 0 0 - 1,
            box.getD 3 0 - box.getD 2 0 - 1,
            box.getD 5 0 - box.getD 4 0 - 1] := by
  rcases p with ⟨xs, ys, zs⟩
  cases xs with
  | nil => simp [findBBDimensions, pymin, pymax, Bind.bind, Except.bind] at h
  | cons x0 xs' =>
    cases ys with
    | nil => simp [findBBDimensions, pymin, pymax, Bind.bind, Except.bind] at h
    | cons y0 ys' =>
      cases zs with
      | nil => simp [findBBDimensions, pymin, pymax, Bind.bind, Except.bind] at h
      | cons z0 zs' =>
        rw [findBBDimensions_ok] at h
        simp only [Except.ok.injEq, Prod.mk.injEq] at h
        obtain ⟨hbox, hdims⟩ := h
        subst hbox
        subst hdims
        simp [List.getD]
        omega

theorem findBB_extent_amended_witness :
    findBBDimensions ([2], [5], [7]) = Except.ok ([2, 3, 5, 6, 7, 8], [0, 0, 0]) ∧
    ([0, 0, 0] : List ℕ) =
      [List.getD [2, 3, 5, 6, 7, 8] 1 0 - List.getD [2, 3, 5, 6, 7, 8] 0 0 - 1,
       List.getD [2, 3, 5, 6, 7, 8] 3 0 - List.getD [2, 3, 5, 6, 7, 8] 2 0 - 1,
       List.getD [2, 3, 5, 6, 7, 8] 5 0 - List.getD [2, 3, 5, 6, 7, 8] 4 0 - 1] :=
  ⟨rfl, findBB_extent_amended ([2], [5], [7]) [2, 3, 5, 6, 7, 8] [0, 0, 0] rfl⟩

/-- C6: on a volume with no nonzero voxel the `np.where` index lists are
empty and `findBBDimensions` fails (Python's `min` raises on an empty
sequence — the spec's `EmptyVolumeError`) instead of returning a box. -/
theorem findBB_empty_error (vol : List (List (List ℕ)))
    (h : nonzeroIndices vol = []) :
    findBBDimensions (whereNonzero vol) = Except.error EmptyVolumeError.valueError := by
  simp [whereNonzero, h]
  rfl

theorem findBB_empty_error_witness :
    nonzeroIndices [[[0, 0], [0, 0]]] = [] ∧
    findBBDimensions (whereNonzero [[[0, 0], [0, 0]]]) =
      Except.error EmptyVolumeError.valueError :=
  ⟨by decide, findBB_empty_error [[[0, 0], [0, 0]]] (by decide)⟩

/-- C3: with `simplify_ratio = None`, `mesh_from_array` skips the
simplification step entirely — the filesystem is untouched, no pipe is
created — and returns exactly the byte stream produced by the OBJ
serializer on the transformed buffers, unchanged. -/
theorem mesh_from_array_skips_simplification (vertices_xyz : List (ℚ × ℚ × ℚ))
    (faces : List (ℕ × ℕ × ℕ)) (box_zyx : (ℚ × ℚ × ℚ) × (ℚ × ℚ × ℚ)) (k : ℚ)
    (d1 d2 out : String) (ec : Int) (fs : FS) :
    mesh_from_array vertices_xyz faces box_zyx k none d1 d2 out ec fs =
      (fs, Except.ok (generate_obj
        (translate_vertices (scale_vertices vertices_xyz k) (boxMinXyz box_zyx))
        (increment_faces (reverse_faces faces)))) := rfl

/-- C8: the transform step of `mesh_from_array` multiplies every vertex
coordinate by `downsample_factor` and then adds the bounding box's minimum
corner — `mesh_from_array` configures no further global offset — and maps
every face tuple to its reversal with 1 added to each index (1-based
indices). -/
theorem transform_scales_translates_reverses (vs : List (ℚ × ℚ × ℚ))
    (faces : List (ℕ × ℕ × ℕ)) (box_zyx : (ℚ × ℚ × ℚ) × (ℚ × ℚ × ℚ)) (k : ℚ) :
    translate_vertices (scale_vertices vs k) (boxMinXyz box_zyx) =
      vs.map (fun v => (v.1 * k + (boxMinXyz box_zyx).1,
                        v.2.1 * k + (boxMinXyz box_zyx).2.1,
                        v.2.2 * k + (boxMinXyz box_zyx).2.2)) ∧
    increment_faces (reverse_faces faces) =
      faces.map (fun f => (f.2.2 + 1, f.2.1 + 1, f.1 + 1)) := by
  constructor <;>
    simp [translate_vertices, scale_vertices, increment_faces, reverse_faces,
      List.map_map, Function.comp]

theorem foldl_append_eq_concatMap {α : Type} (g : α → String) :
    ∀ (l : List α) (s : String),
      l.foldl (fun b a => b ++ g a) s = s ++ concatMap g l := by
  intro l
  induction l with
  | nil => intro s; simp [concatMap]
  | cons a as ih =>
    intro s
    rw [List.foldl_cons, ih, concatMap, String.append_assoc]

/-- C9 counterexample: the claim describes each face line as
`f <i1> <i2> <i3>` followed by the newline, but `generate_obj` writes a
space between the last index and the newline (`f"f {v1} {v2} {v3} \n"`):
on one face `(1, 2, 3)` its output differs from the claimed format. -/
theorem generate_obj_claim_counterexample :
    generate_obj [] [(1, 2, 3)] ≠ generate_obj_claimed [] [(1, 2, 3)] := by
  decide

/-- C9 (amended): `generate_obj` produces exactly one leading comment
line, then one newline-terminated line `v <x> <y> <z>` per vertex with
each coordinate at fixed 7-decimal precision, then one line per face with
space-separated 1-based indices written as `f <i1> <i2> <i3> ` with a
trailing space before the newline; all vertex lines precede all face
lines. -/
theorem generate_obj_format (vs : List (ℚ × ℚ × ℚ)) (fcs : List (ℕ × ℕ × ℕ)) :
    generate_obj vs fcs =
      "# OBJ file\n" ++
      concatMap (fun v =>
        "v " ++ fmt7 v.1 ++ " " ++ fmt7 v.2.1 ++ " " ++ fmt7 v.2.2 ++ "\n") vs ++
      concatMap (fun f =>
        "f " ++ toString f.1 ++ " " ++ toString f.2.1 ++ " " ++ toString f.2.2 ++ " \n")
        fcs := by
  simp only [generate_obj]
  rw [foldl_append_eq_concatMap, foldl_append_eq_concatMap, String.append_assoc]

theorem pySlice_length {α : Type} (a b : ℕ) (l : List α) :
    (pySlice a b l).length = min (b - a) (l.length - a) := by
  simp [pySlice, List.length_take, List.length_drop]

theorem mem_of_mem_pySlice {α : Type} {a b : ℕ} {x : α} {l : List α}
    (h : x ∈ pySlice a b l) : x ∈ l :=
  List.mem_of_mem_drop (List.mem_of_mem_take h)

theorem headD_mem {α : Type} (l : List α) (d : α) (h : l ≠ []) : l.headD d ∈ l := by
  cases l with
  | nil => exact absurd rfl h
  | cons a as => exact List.mem_cons_self _ _

/-- Numpy basic slicing of a rectangular array yields a rectangular
array: the cropped window keeps uniform (clamped) plane and row lengths. -/
theorem cropVolume_isRect (vol : List (List (List ℕ))) (box : List ℕ) (n1 n2 : ℕ)
    (h : IsRectWith n1 n2 vol) :
    IsRectWith (min (box.getD 3 0 - box.getD 2 0) (n1 - box.getD 2 0))
               (min (box.getD 5 0 - box.getD 4 0) (n2 - box.getD 4 0))
               (cropVolume vol box) := by
  intro plane' hp'
  simp only [cropVolume, List.mem_map] at hp'
  obtain ⟨p, hp, rfl⟩ := hp'
  have hpvol : p ∈ vol := mem_of_mem_pySlice hp
  obtain ⟨hlen, hrows⟩ := h p hpvol
  constructor
  · rw [List.length_map, pySlice_length, hlen]
  · intro row' hr'
    rw [List.mem_map] at hr'
    obtain ⟨r, hr, rfl⟩ := hr'
    rw [pySlice_length, hrows r (mem_of_mem_pySlice hr)]

theorem padCrop_window_spec (w : List (List (List ℕ))) (c1 c2 : ℕ)
    (hrect : IsRectWith c1 c2 w) :
    (∀ z y x : ℕ,
      (padCrop w).data (z + 1) (y + 1) (x + 1) = true ↔
        ∃ plane row v, w[z]? = some plane ∧ plane[y]? = some row ∧
          row[x]? = some v ∧ 0 < v) ∧
    (∀ z y x : ℕ, (padCrop w).data z y x = true →
      (0 < z ∧ z + 1 < (padCrop w).shape0) ∧
      (0 < y ∧ y + 1 < (padCrop w).shape1) ∧
      (0 < x ∧ x + 1 < (padCrop w).shape2)) := by
  constructor
  · intro z y x
    have hdef : (padCrop w).data (z + 1) (y + 1) (x + 1) =
        decide ((z + 1, y + 1, x + 1) ∈ (nonzeroIndices w).map
          (fun p => (p.1 + 1, p.2.1 + 1, p.2.2 + 1))) := rfl
    rw [hdef, decide_eq_true_eq]
    constructor
    · intro hmem
      obtain ⟨p, hp, heq⟩ := List.mem_map.mp hmem
      obtain ⟨a, b, c⟩ := p
      simp only [Prod.mk.injEq] at heq
      obtain ⟨h1, h2, h3⟩ := heq
      have ha : a = z := by omega
      have hb : b = y := by omega
      have hc : c = x := by omega
      rw [ha, hb, hc] at hp
      exact (mem_nonzeroIndices w z y x).mp hp
    · intro hex
      exact List.mem_map.mpr ⟨(z, y, x), (mem_nonzeroIndices w z y x).mpr hex, rfl⟩
  · intro z y x hdata
    have hdef : (padCrop w).data z y x =
        decide ((z, y, x) ∈ (nonzeroIndices w).map
          (fun p => (p.1 + 1, p.2.1 + 1, p.2.2 + 1))) := rfl
    rw [hdef, decide_eq_true_eq] at hdata
    obtain ⟨p, hp, heq⟩ := List.mem_map.mp hdata
    obtain ⟨a, b, c⟩ := p
    simp only [Prod.mk.injEq] at heq
    obtain ⟨h1, h2, h3⟩ := heq
    obtain ⟨plane, row, v, hwz, hpy, hrx, _hv⟩ := (mem_nonzeroIndices w a b c).mp hp
    obtain ⟨hzlt, hwzeq⟩ := List.getElem?_eq_some.mp hwz
    have hplane_mem : plane ∈ w := by
      rw [← hwzeq]; exact List.getElem_mem hzlt
    obtain ⟨hplen, hprows⟩ := hrect plane hplane_mem
    obtain ⟨hylt', hpyeq⟩ := List.getElem?_eq_some.mp hpy
    have hylt : b < c1 := by rw [hplen] at hylt'; exact hylt'
    have hrow_mem : row ∈ plane := by
      rw [← hpyeq]; exact List.getElem_mem hylt'
    have hrlen := hprows row hrow_mem
    obtain ⟨hxlt', _⟩ := List.getElem?_eq_some.mp hrx
    have hxlt : c < c2 := by rw [hrlen] at hxlt'; exact hxlt'
    have hw_ne : w ≠ [] := by
      intro hnil
      rw [hnil] at hzlt
      simp at hzlt
    have hhead1 : (w.headD []).length = c1 := (hrect _ (headD_mem w [] hw_ne)).1
    have hhd_ne : w.headD [] ≠ [] := by
      intro hnil
      rw [hnil] at hhead1
      simp at hhead1
      omega
    have hhead2 : ((w.headD []).headD []).length = c2 :=
      (hrect _ (headD_mem w [] hw_ne)).2 _ (headD_mem _ [] hhd_ne)
    have hs0 : (padCrop w).shape0 = w.length + 2 := rfl
    have hs1 : (padCrop w).shape1 = (w.headD []).length + 2 := rfl
    have hs2 : (padCrop w).shape2 = ((w.headD []).headD []).length + 2 := rfl
    rw [hs0, hs1, hs2, hhead1, hhead2]
    omega

/-- C7: for every (rectangular, as numpy guarantees) volume and bounding
box, the cropper/padder output is a boolean volume exactly two voxels
larger than the cropped window on each axis; its interior voxel
`(z+1, y+1, x+1)` is `True` exactly when the cropped window's voxel
`(z, y, x)` is foreground — the cropped foreground copied at offset
`(1,1,1)` into an otherwise zero-initialized volume — and no `True` voxel
lies at index 0 or at the last index (`shape - 1`) on any axis. -/
theorem padCrop_crop_spec (vol : List (List (List ℕ))) (box : List ℕ) (n1 n2 : ℕ)
    (h : IsRectWith n1 n2 vol) :
    ((padCrop (cropVolume vol box)).shape0 = (cropVolume vol box).length + 2 ∧
     (padCrop (cropVolume vol box)).shape1 =
       ((cropVolume vol box).headD []).length + 2 ∧
     (padCrop (cropVolume vol box)).shape2 =
       (((cropVolume vol box).headD []).headD []).length + 2) ∧
    (∀ z y x : ℕ,
      (padCrop (cropVolume vol box)).data (z + 1) (y + 1) (x + 1) = true ↔
        ∃ plane row v, (cropVolume vol box)[z]? = some plane ∧
          plane[y]? = some row ∧ row[x]? = some v ∧ 0 < v) ∧
    (∀ z y x : ℕ, (padCrop (cropVolume vol box)).data z y x = true →
      (0 < z ∧ z + 1 < (padCrop (cropVolume vol box)).shape0) ∧
      (0 < y ∧ y + 1 < (padCrop (cropVolume vol box)).shape1) ∧
      (0 < x ∧ x + 1 < (padCrop (cropVolume vol box)).shape2)) := by
  have hspec := padCrop_window_spec (cropVolume vol box) _ _
    (cropVolume_isRect vol box n1 n2 h)
  exact ⟨⟨rfl, rfl, rfl⟩, hspec.1, hspec.2⟩

theorem padCrop_crop_spec_witness :
    IsRectWith 2 2 [[[1, 0], [0, 2]]] ∧
    (((padCrop (cropVolume [[[1, 0], [0, 2]]] [0, 1, 0, 2, 0, 2])).shape0 =
        (cropVolume [[[1, 0], [0, 2]]] [0, 1, 0, 2, 0, 2]).length + 2 ∧
      (padCrop (cropVolume [[[1, 0], [0, 2]]] [0, 1, 0, 2, 0, 2])).shape1 =
        ((cropVolume [[[1, 0], [0, 2]]] [0, 1, 0, 2, 0, 2]).headD []).length + 2 ∧
      (padCrop (cropVolume [[[1, 0], [0, 2]]] [0, 1, 0, 2, 0, 2])).shape2 =
        (((cropVolume [[[1, 0], [0, 2]]] [0, 1, 0, 2, 0, 2]).headD []).headD []).length + 2) ∧
     (∀ z y x : ℕ,
       (padCrop (cropVolume [[[1, 0], [0, 2]]] [0, 1, 0, 2, 0, 2])).data
           (z + 1) (y + 1) (x + 1) = true ↔
         ∃ plane row v,
           (cropVolume [[[1, 0], [0, 2]]] [0, 1, 0, 2, 0, 2])[z]? = some plane ∧
           plane[y]? = some row ∧ row[x]? = some v ∧ 0 < v) ∧
     (∀ z y x : ℕ,
       (padCrop (cropVolume [[[1, 0], [0, 2]]] [0, 1, 0, 2, 0, 2])).data z y x = true →
         (0 < z ∧ z + 1 < (padCrop (cropVolume [[[1, 0], [0, 2]]] [0, 1, 0, 2, 0, 2])).shape0) ∧
         (0 < y ∧ y + 1 < (padCrop (cropVolume [[[1, 0], [0, 2]]] [0, 1, 0, 2, 0, 2])).shape1) ∧
         (0 < x ∧ x + 1 < (padCrop (cropVolume [[[1, 0], [0, 2]]] [0, 1, 0, 2, 0, 2])).shape2))) :=
  ⟨by decide, padCrop_crop_spec [[[1, 0], [0, 2]]] [0, 1, 0, 2, 0, 2] 2 2 (by decide)⟩

end Vol2Mesh
